import Mathlib

/-!
Shallow embedding of `src/app/components/saved_tracks/saved_tracks_model.rs`.

The model reads shared application state and dispatches actions. Stateful
methods are embedded as pure functions from `AppState` to the ordered list of
actions they dispatch; optional reads become `Option` results. Types that the
source file only uses (the `Batch` pagination cursor, the rendered song model,
the selection tool enums, the browser state accessor) are modelled from the
specification, each marked in its doc comment.
-/

/-- An artist reference: id and name (used inside `SongDescription`). -/
structure ArtistRef where
  id : String
  name : String
  deriving DecidableEq, Repr

/-- `SongDescription`: immutable song value — id, title, artists, album
reference, duration. Identity is the id string. -/
structure SongDescription where
  id : String
  title : String
  artists : List ArtistRef
  album : String
  duration : Nat
  deriving DecidableEq, Repr

/-- Modelled from the spec: the pagination cursor
`PaginationCursor{offset, batch_size, total}` (the source type `Batch` is not
under src/). The spec also allows an unknown total, signalled by a short page;
the cursor itself carries no record of the last page length, so the total is
modelled as known. -/
structure Batch where
  offset : Nat
  batch_size : Nat
  total : Nat
  deriving DecidableEq, Repr

/-- Modelled from the spec: `PaginationCursor.next()` yields `None` when
`offset + batch_size >= total`, else yields the cursor advanced by one page. -/
def Batch.next (b : Batch) : Option Batch :=
  if b.offset + b.batch_size ≥ b.total then none
  else some { b with offset := b.offset + b.batch_size }

/-- `SongBatch`: a page descriptor — a cursor plus the page's songs. -/
structure SongBatch where
  batch : Batch
  songs : List SongDescription
  deriving DecidableEq, Repr

/-- Modelled from the spec: the home/browser state slice holding the
accumulated `saved_tracks` list and the cursor of the most recently fetched
page (`last_saved_tracks_batch`). -/
structure HomeState where
  saved_tracks : List SongDescription
  last_saved_tracks_batch : Batch
  deriving DecidableEq, Repr

/-- Modelled from the spec: browser state, exposing `home_state()` as an
optional slice (absent until the home view has loaded). -/
structure BrowserState where
  home_state : Option HomeState
  deriving DecidableEq, Repr

/-- Modelled from the spec: the selection context tag — `Queue` or other
contexts (the concrete other variants are not under src/). -/
inductive SelectionContext where
  | queue
  | otherContext (tag : Nat)
  deriving DecidableEq, Repr

/-- `SelectionState`: the shared selection slot — a context tag and the
currently selected songs (selection stores full items). -/
structure SelectionState where
  context : SelectionContext
  selected : List SongDescription
  deriving DecidableEq, Repr

/-- Modelled from the spec: the playback state slice, as far as this model
reads it (`current_song_id`). -/
structure PlaybackState where
  current_song_id : Option String
  deriving DecidableEq, Repr

/-- `AppState`: the single root aggregate owning browser, playback and
selection state. -/
structure AppState where
  browser : BrowserState
  playback : PlaybackState
  selection : SelectionState
  deriving DecidableEq, Repr

/-- Modelled from the spec: playlist provenance tag; this model only uses
`SavedTracks`. -/
inductive PlaylistSource where
  | savedTracks
  | otherSource (tag : Nat)
  deriving DecidableEq, Repr

/-- `PlaybackAction`, the variants this model dispatches. -/
inductive PlaybackAction where
  | load (id : String)
  | loadPagedSongs (source : Option PlaylistSource) (songs : SongBatch)
  deriving DecidableEq, Repr

/-- `SelectionAction`: select full items, deselect by id. -/
inductive SelectionAction where
  | select (songs : List SongDescription)
  | deselect (ids : List String)
  deriving DecidableEq, Repr

/-- `BrowserAction`, the variant this model dispatches. -/
inductive BrowserAction where
  | appendSavedTracks (batch : SongBatch)
  deriving DecidableEq, Repr

/-- `AppAction`: the tagged union of dispatched intents. -/
inductive AppAction where
  | playbackAction (a : PlaybackAction)
  | selectionAction (a : SelectionAction)
  | browserAction (a : BrowserAction)
  | changeSelectionMode (active : Bool)
  deriving DecidableEq, Repr

/-- `BrowserEvent`: `SavedTracksAppended(startIndex)` plus the other variants
this list filters out (modelled by a tag, they are not under src/). -/
inductive BrowserEvent where
  | savedTracksAppended (start : Nat)
  | otherBrowserEvent (tag : Nat)
  deriving DecidableEq, Repr

/-- `AppEvent`: browser events plus the other variants this list filters out. -/
inductive AppEvent where
  | browserEvent (e : BrowserEvent)
  | otherEvent (tag : Nat)
  deriving DecidableEq, Repr

/-- Modelled from the spec: `ListDiff` is a tagged variant — `Append`,
`Reset`, `Remove` (the enum itself is not under src/; the source file only
constructs `Append`). -/
inductive ListDiff (α : Type) where
  | append (items : List α)
  | reset (items : List α)
  | remove (ids : List String)
  deriving DecidableEq, Repr

/-- Modelled from the spec: the rendered representation of a song at a list
position (`to_song_model` is not under src/; the rendered item pairs the song
with its index in the list). -/
structure SongModel where
  position : Nat
  description : SongDescription
  deriving DecidableEq, Repr

/-- Modelled from the spec: `SongDescription::to_song_model(i)` renders the
song at position `i`. -/
def SongDescription.to_song_model (s : SongDescription) (i : Nat) : SongModel :=
  { position := i, description := s }

namespace SavedTracksModel

/-- `SavedTracksModel::songs`: the saved-tracks slice, absent exactly when the
home state slice is absent. -/
def songs (st : AppState) : Option (List SongDescription) :=
  st.browser.home_state.map fun s => s.saved_tracks

/-- `current_song_id`: read-only projection of playback state. -/
def current_song_id (st : AppState) : Option String :=
  st.playback.current_song_id

/-- `play_song(id)`: when the home state slice is present, first dispatches
`LoadPagedSongs(SavedTracks, {cursor, saved_tracks})`, then always dispatches
`Load(id)`. The returned list is the ordered dispatch log. -/
def play_song (st : AppState) (id : String) : List AppAction :=
  (match st.browser.home_state with
   | some home_state =>
     [AppAction.playbackAction (PlaybackAction.loadPagedSongs
       (some PlaylistSource.savedTracks)
       { batch := home_state.last_saved_tracks_batch
         songs := home_state.saved_tracks })]
   | none => []) ++
  [AppAction.playbackAction (PlaybackAction.load id)]

/-- `diff_for_event`: derives the full rendered sequence from current state,
and on `SavedTracksAppended(i)` emits `Append` of the rendered items from
position `i` on; `None` for any other event or when the slice is absent. -/
def diff_for_event (st : AppState) (event : AppEvent) :
    Option (ListDiff SongModel) := do
  let s ← songs st
  let rendered := s.enum.map fun p => p.2.to_song_model p.1
  match event with
  | AppEvent.browserEvent (BrowserEvent.savedTracksAppended i) =>
    some (ListDiff.append (rendered.drop i))
  | _ => none

/-- The asynchronous fetch scheduled by `load_more`: the offset and limit
passed to `get_saved_tracks`, and the translation of a successful result into
the dispatched action. -/
structure ScheduledFetch where
  offset : Nat
  limit : Nat
  on_success : SongBatch → AppAction

/-- `load_more()`: `None` (no fetch) when the home slice is absent or the last
batch's cursor has no next page; otherwise schedules one fetch at the next
cursor's offset and batch size, whose success dispatches
`AppendSavedTracks`. -/
def load_more (st : AppState) : Option ScheduledFetch := do
  let home_state ← st.browser.home_state
  let batch ← home_state.last_saved_tracks_batch.next
  some { offset := batch.offset
         limit := batch.batch_size
         on_success := fun song_batch =>
           AppAction.browserAction (BrowserAction.appendSavedTracks song_batch) }

/-- `select_song(id)`: resolves the id to its full value in the rendered list
and dispatches `Select` of it; dispatches nothing when not found or the slice
is absent. -/
def select_song (st : AppState) (id : String) : List AppAction :=
  match (songs st).bind fun l => l.find? fun song => song.id == id with
  | some song => [AppAction.selectionAction (SelectionAction.select [song])]
  | none => []

/-- `deselect_song(id)`: unconditionally dispatches `Deselect([id])`. -/
def deselect_song (_st : AppState) (id : String) : List AppAction :=
  [AppAction.selectionAction (SelectionAction.deselect [id])]

/-- `enable_selection()`: dispatches the mode change and reports `true`. -/
def enable_selection (_st : AppState) : List AppAction × Bool :=
  ([AppAction.changeSelectionMode true], true)

/-- `PlaylistModel::selection` for `SavedTracksModel`: the shared selection
state, filtered to be present only when the context is `Queue`. -/
def PlaylistModel.selection (st : AppState) : Option SelectionState :=
  (some st.selection).filter fun s => s.context == SelectionContext.queue

/-- `SelectionToolsModel::selection` for `SavedTracksModel`: the shared
selection state, filtered to be present only when the context is `Queue`. -/
def SelectionToolsModel.selection (st : AppState) : Option SelectionState :=
  (some st.selection).filter fun s => s.context == SelectionContext.queue

/-- Modelled from the spec: the simple selection tool tags; the source uses
`SelectAll`, other variants are represented by a tag. -/
inductive SimpleSelectionTool where
  | selectAll
  | otherSimpleTool (tag : Nat)
  deriving DecidableEq, Repr

/-- Modelled from the spec: selection tool tagged variants — the simple tools
plus any other tool kind, represented by a tag. -/
inductive SelectionTool where
  | simple (tool : SimpleSelectionTool)
  | otherTool (tag : Nat)
  deriving DecidableEq, Repr

/-- `tools_visible`: for this list, exactly one tool — select all. -/
def tools_visible (_sel : SelectionState) : List SelectionTool :=
  [SelectionTool.simple SimpleSelectionTool.selectAll]

/-- Modelled from the spec: the trait-provided `handle_select_all_tool`
(not under src/) selects every given rendered item. -/
def handle_select_all_tool (_sel : SelectionState)
    (items : List SongDescription) : List AppAction :=
  [AppAction.selectionAction (SelectionAction.select items)]

/-- The observable effect of `handle_tool_activated`: either a dispatch log,
or delegation to the framework's default handler (an external collaborator). -/
inductive ToolEffect where
  | dispatched (actions : List AppAction)
  | delegatedToDefault (tool : SelectionTool)
  deriving DecidableEq, Repr

/-- `handle_tool_activated`: on select-all, selects every currently rendered
item (nothing when the slice is absent); any other tool is delegated to the
default handler. -/
def handle_tool_activated (st : AppState) (sel : SelectionState)
    (tool : SelectionTool) : ToolEffect :=
  match tool with
  | SelectionTool.simple SimpleSelectionTool.selectAll =>
    (match songs st with
     | some s => ToolEffect.dispatched (handle_select_all_tool sel s)
     | none => ToolEffect.dispatched [])
  | _ => ToolEffect.delegatedToDefault tool

end SavedTracksModel

open SavedTracksModel

/-! Concrete fixtures used to evaluate the definitions on sample states. -/

/-- A sample song with id "a". -/
def songA : SongDescription :=
  { id := "a", title := "Song A", artists := [], album := "Album", duration := 100 }

/-- A sample song with id "b". -/
def songB : SongDescription :=
  { id := "b", title := "Song B", artists := [], album := "Album", duration := 120 }

/-- A sample cursor: offset 0, batch size 2, total 5 (so a next page exists). -/
def batchAB : Batch := { offset := 0, batch_size := 2, total := 5 }

/-- A sample state whose home slice holds `[songA, songB]`, selection context Queue. -/
def stAB : AppState :=
  { browser :=
      { home_state := some
          { saved_tracks := [songA, songB], last_saved_tracks_batch := batchAB } }
    playback := { current_song_id := none }
    selection := { context := SelectionContext.queue, selected := [] } }

/-- A sample state whose home slice holds only `[songA]`. -/
def stA : AppState :=
  { browser :=
      { home_state := some
          { saved_tracks := [songA], last_saved_tracks_batch := batchAB } }
    playback := { current_song_id := none }
    selection := { context := SelectionContext.queue, selected := [] } }

/-- A sample state with the home slice absent and a non-Queue selection context. -/
def stNoHome : AppState :=
  { browser := { home_state := none }
    playback := { current_song_id := none }
    selection := { context := SelectionContext.otherContext 0, selected := [] } }

/-! Helper lemmas about enumerated lists, shared by the diff theorems. -/

/-- Dropping the first `prev.length` entries of the enumeration of `prev ++ rest`
leaves the enumeration of `rest` starting at index `n + prev.length`. -/
theorem map_enumFrom_append_drop {α β : Type} (f : Nat × α → β) :
    ∀ (prev : List α) (n : Nat) (rest : List α),
      (((prev ++ rest).enumFrom n).map f).drop prev.length
        = (rest.enumFrom (n + prev.length)).map f := by
  intro prev
  induction prev with
  | nil => intro n rest; simp
  | cons a t ih =>
    intro n rest
    simp only [List.cons_append, List.enumFrom, List.append_eq, List.map_cons,
      List.length_cons, List.drop_succ_cons]
    rw [ih (n + 1) rest, show n + 1 + t.length = n + (t.length + 1) by omega]

/-- Shifting the start of an enumeration by `n` is the same as adding `n` to each
produced index. -/
theorem map_enumFrom_add {α β : Type} (f : Nat × α → β) (n : Nat) :
    ∀ (l : List α) (m : Nat),
      (l.enumFrom (n + m)).map f
        = (l.enumFrom m).map fun p => f (n + p.1, p.2) := by
  intro l
  induction l with
  | nil => intro m; rfl
  | cons a t ih =>
    intro m
    simp only [List.enumFrom, List.map_cons]
    rw [show n + m + 1 = n + (m + 1) by omega, ih (m + 1)]

/-- Enumerating from `n` equals enumerating from 0 with `n` added to each index. -/
theorem map_enumFrom_eq_map_enum {α β : Type} (f : Nat × α → β) (n : Nat)
    (l : List α) :
    (l.enumFrom n).map f = l.enum.map fun p => f (n + p.1, p.2) :=
  map_enumFrom_add f n l 0

/-- The rendered models of `prev ++ rest` beyond position `prev.length` are exactly
the rendered models of `rest`, index-aligned after `prev`. -/
theorem rendered_drop_append (prev rest : List SongDescription) :
    (((prev ++ rest).enum.map fun p => p.2.to_song_model p.1).drop prev.length)
      = rest.enum.map fun p => p.2.to_song_model (prev.length + p.1) := by
  have h1 := map_enumFrom_append_drop
    (fun p : Nat × SongDescription => p.2.to_song_model p.1) prev 0 rest
  have h2 := map_enumFrom_eq_map_enum
    (fun p : Nat × SongDescription => p.2.to_song_model p.1) (0 + prev.length) rest
  rw [show (prev ++ rest).enum = (prev ++ rest).enumFrom 0 from rfl, h1, h2]
  simp only [Nat.zero_add]

/-! Claim theorems. -/

/-- C1: with the state slice present, `diff_for_event(SavedTracksAppended(N))` for
`N` the length of the previously rendered prefix returns `Append` of exactly the
new rendered items, index-aligned; every other event variant yields `none`, and an
absent state slice yields `none` for every event. -/
theorem diff_for_event_append_spec :
    (∀ (st : AppState) (prev rest : List SongDescription),
      songs st = some (prev ++ rest) →
      diff_for_event st
          (AppEvent.browserEvent (BrowserEvent.savedTracksAppended prev.length)) =
        some (ListDiff.append
          (rest.enum.map fun p => p.2.to_song_model (prev.length + p.1)))) ∧
    (∀ (st : AppState) (tag : Nat),
      diff_for_event st
        (AppEvent.browserEvent (BrowserEvent.otherBrowserEvent tag)) = none) ∧
    (∀ (st : AppState) (tag : Nat),
      diff_for_event st (AppEvent.otherEvent tag) = none) ∧
    (∀ (st : AppState) (event : AppEvent),
      st.browser.home_state = none → diff_for_event st event = none) := by
  refine ⟨?_, ?_, ?_, ?_⟩
  · intro st prev rest h
    simp only [diff_for_event, h, Option.bind_eq_bind, Option.some_bind]
    rw [rendered_drop_append]
  · intro st tag
    cases h : songs st <;> simp [diff_for_event, h]
  · intro st tag
    cases h : songs st <;> simp [diff_for_event, h]
  · intro st event h
    simp [diff_for_event, songs, h]

/-- C1 witness: on the two-song state, an append event at start index 1 yields the
single rendered item at position 1. -/
theorem diff_for_event_append_spec_witness :
    diff_for_event stAB
        (AppEvent.browserEvent (BrowserEvent.savedTracksAppended 1)) =
      some (ListDiff.append [{ position := 1, description := songB }]) := by
  have h := diff_for_event_append_spec.1 stAB [songA] [songB] rfl
  simpa using h

/-- C2 counterexample: with the home state slice absent, `play_song("b")`
dispatches a single `Load` action — not a two-step sequence beginning with
`LoadPagedSongs`. -/
theorem play_song_not_always_two_step :
    play_song stNoHome "b" = [AppAction.playbackAction (PlaybackAction.load "b")] :=
  rfl

/-- C2 (amended): when the home state slice is present, `play_song(id)` performs
the two-step dispatch in fixed order — first `LoadPagedSongs` tagged
`PlaylistSource::SavedTracks` carrying the whole saved-tracks list and its
cursor, then `Load(id)`; whenever both are dispatched, `LoadPagedSongs`
precedes `Load`. -/
theorem play_song_two_step (st : AppState) (hs : HomeState) (id : String)
    (h : st.browser.home_state = some hs) :
    play_song st id =
      [AppAction.playbackAction (PlaybackAction.loadPagedSongs
          (some PlaylistSource.savedTracks)
          { batch := hs.last_saved_tracks_batch, songs := hs.saved_tracks }),
       AppAction.playbackAction (PlaybackAction.load id)] := by
  simp [play_song, h]

/-- C2 witness: on the two-song state, `play_song("b")` dispatches the paged
load of `[songA, songB]` with its cursor, then `Load("b")`. -/
theorem play_song_two_step_witness :
    play_song stAB "b" =
      [AppAction.playbackAction (PlaybackAction.loadPagedSongs
          (some PlaylistSource.savedTracks)
          { batch := batchAB, songs := [songA, songB] }),
       AppAction.playbackAction (PlaybackAction.load "b")] :=
  play_song_two_step stAB
    { saved_tracks := [songA, songB], last_saved_tracks_batch := batchAB } "b" rfl

/-- C3: `load_more()` yields no fetch when the home slice is absent or the last
batch's cursor has no next page; otherwise it schedules one fetch at the next
cursor's offset and batch size whose successful result is dispatched as
`AppendSavedTracks`. -/
theorem load_more_spec :
    (∀ st : AppState, st.browser.home_state = none → load_more st = none) ∧
    (∀ (st : AppState) (hs : HomeState), st.browser.home_state = some hs →
      hs.last_saved_tracks_batch.next = none → load_more st = none) ∧
    (∀ (st : AppState) (hs : HomeState) (nb : Batch),
      st.browser.home_state = some hs →
      hs.last_saved_tracks_batch.next = some nb →
      load_more st =
        some { offset := nb.offset
               limit := nb.batch_size
               on_success := fun song_batch =>
                 AppAction.browserAction
                   (BrowserAction.appendSavedTracks song_batch) }) := by
  refine ⟨?_, ?_, ?_⟩
  · intro st h
    simp [load_more, h]
  · intro st hs h hn
    simp [load_more, h, hn]
  · intro st hs nb h hn
    simp [load_more, h, hn]

/-- C3 witness: on the two-song state (cursor offset 0, batch size 2, total 5),
`load_more` schedules a fetch at offset 2 with limit 2, dispatching
`AppendSavedTracks` on success. -/
theorem load_more_spec_witness :
    load_more stAB =
      some { offset := 2
             limit := 2
             on_success := fun song_batch =>
               AppAction.browserAction
                 (BrowserAction.appendSavedTracks song_batch) } :=
  load_more_spec.2.2 stAB
    { saved_tracks := [songA, songB], last_saved_tracks_batch := batchAB }
    { offset := 2, batch_size := 2, total := 5 } rfl (by decide)

/-- C4 counterexample: on the one-song state the rendered length is 1, but for
the mismatching start index 0 the diff is still an `Append` (re-sending the
already rendered item), not the claimed `Reset` fallback. -/
theorem diff_mismatch_still_append :
    diff_for_event stA
        (AppEvent.browserEvent (BrowserEvent.savedTracksAppended 0)) =
      some (ListDiff.append [{ position := 0, description := songA }]) := by
  decide

/-- C4 (amended): for any start index M — whether or not it matches the rendered
length — `diff_for_event(SavedTracksAppended(M))` produces an incremental
`Append` of the rendered items from position M on; it never falls back to a
full `Reset` diff. -/
theorem diff_no_reset_fallback (st : AppState) (l : List SongDescription)
    (m : Nat) (h : songs st = some l) :
    diff_for_event st
        (AppEvent.browserEvent (BrowserEvent.savedTracksAppended m)) =
      some (ListDiff.append
        ((l.enum.map fun p => p.2.to_song_model p.1).drop m)) ∧
    ∀ items : List SongModel,
      diff_for_event st
          (AppEvent.browserEvent (BrowserEvent.savedTracksAppended m)) ≠
        some (ListDiff.reset items) := by
  have hd : diff_for_event st
      (AppEvent.browserEvent (BrowserEvent.savedTracksAppended m)) =
      some (ListDiff.append
        ((l.enum.map fun p => p.2.to_song_model p.1).drop m)) := by
    simp only [diff_for_event, h, Option.bind_eq_bind, Option.some_bind]
  refine ⟨hd, fun items hc => ?_⟩
  rw [hd] at hc
  simp at hc

/-- C4 witness: on the one-song state, a start index past the end still yields
an (empty) `Append`. -/
theorem diff_no_reset_fallback_witness :
    diff_for_event stA
        (AppEvent.browserEvent (BrowserEvent.savedTracksAppended 5)) =
      some (ListDiff.append []) :=
  (diff_no_reset_fallback stA [songA] 5 rfl).1

/-- C5: the `PlaylistModel` selection accessor yields the shared selection state
exactly when the global selection context is `Queue`, and `none` for every other
context value (it is total, so it never errors). -/
theorem playlist_selection_queue_only (st : AppState) :
    (PlaylistModel.selection st = some st.selection ↔
      st.selection.context = SelectionContext.queue) ∧
    (st.selection.context ≠ SelectionContext.queue →
      PlaylistModel.selection st = none) := by
  constructor
  · constructor
    · intro h
      by_contra hc
      simp [PlaylistModel.selection, Option.filter, hc] at h
    · intro h
      simp [PlaylistModel.selection, Option.filter, h]
  · intro h
    simp [PlaylistModel.selection, Option.filter, h]

/-- C5 witness: on the Queue-context state the accessor is present; on the
non-Queue state it is absent. -/
theorem playlist_selection_queue_only_witness :
    PlaylistModel.selection stAB = some stAB.selection ∧
    PlaylistModel.selection stNoHome = none :=
  ⟨(playlist_selection_queue_only stAB).1.mpr rfl,
   (playlist_selection_queue_only stNoHome).2 (by decide)⟩

/-- C6: `select_song(id)` dispatches `Select` of the full song value resolved
from the rendered list when some rendered song has that id, and dispatches
nothing when no rendered song has the id or the state slice is absent. -/
theorem select_song_spec :
    (∀ (st : AppState) (l : List SongDescription) (id : String),
      songs st = some l → (∃ s ∈ l, s.id = id) →
      ∃ song ∈ l, song.id = id ∧
        select_song st id =
          [AppAction.selectionAction (SelectionAction.select [song])]) ∧
    (∀ (st : AppState) (l : List SongDescription) (id : String),
      songs st = some l → (∀ s ∈ l, s.id ≠ id) →
      select_song st id = []) ∧
    (∀ (st : AppState) (id : String),
      songs st = none → select_song st id = []) := by
  refine ⟨?_, ?_, ?_⟩
  · intro st l id hl hex
    obtain ⟨s, hs, hid⟩ := hex
    have hsome : (l.find? fun song => song.id == id).isSome :=
      List.find?_isSome.mpr ⟨s, hs, by simp [hid]⟩
    obtain ⟨song, hfind⟩ := Option.isSome_iff_exists.mp hsome
    refine ⟨song, List.mem_of_find?_eq_some hfind, ?_, ?_⟩
    · have hp := List.find?_some hfind
      simpa using hp
    · simp [select_song, hl, hfind]
  · intro st l id hl hnone
    have hfind : (l.find? fun song => song.id == id) = none :=
      List.find?_eq_none.mpr fun x hx => by simp [hnone x hx]
    simp [select_song, hl, hfind]
  · intro st id h
    simp [select_song, h]

/-- C6 witness: on the one-song state, id "b" is absent so nothing is
dispatched; likewise with the slice absent. -/
theorem select_song_spec_witness :
    select_song stA "b" = [] ∧ select_song stNoHome "b" = [] :=
  ⟨select_song_spec.2.1 stA [songA] "b" rfl (by decide),
   select_song_spec.2.2 stNoHome "b" rfl⟩

/-- C7: `tools_visible` is exactly the one-element select-all list;
`handle_tool_activated` on select-all selects every currently rendered item,
and any other tool is delegated to the default handler. -/
theorem selection_tools_spec :
    (∀ sel : SelectionState,
      tools_visible sel =
        [SelectionTool.simple SimpleSelectionTool.selectAll]) ∧
    (∀ (st : AppState) (sel : SelectionState) (l : List SongDescription),
      songs st = some l →
      handle_tool_activated st sel
          (SelectionTool.simple SimpleSelectionTool.selectAll) =
        ToolEffect.dispatched
          [AppAction.selectionAction (SelectionAction.select l)]) ∧
    (∀ (st : AppState) (sel : SelectionState) (tool : SelectionTool),
      tool ≠ SelectionTool.simple SimpleSelectionTool.selectAll →
      handle_tool_activated st sel tool =
        ToolEffect.delegatedToDefault tool) := by
  refine ⟨fun _ => rfl, ?_, ?_⟩
  · intro st sel l h
    simp [handle_tool_activated, handle_select_all_tool, h]
  · intro st sel tool h
    match tool with
    | SelectionTool.simple SimpleSelectionTool.selectAll => exact absurd rfl h
    | SelectionTool.simple (SimpleSelectionTool.otherSimpleTool t) => rfl
    | SelectionTool.otherTool t => rfl

/-- C7 witness: on the two-song state, activating select-all dispatches a
`Select` of both rendered songs; another tool is delegated. -/
theorem selection_tools_spec_witness :
    handle_tool_activated stAB stAB.selection
        (SelectionTool.simple SimpleSelectionTool.selectAll) =
      ToolEffect.dispatched
        [AppAction.selectionAction (SelectionAction.select [songA, songB])] ∧
    handle_tool_activated stAB stAB.selection (SelectionTool.otherTool 7) =
      ToolEffect.delegatedToDefault (SelectionTool.otherTool 7) :=
  ⟨selection_tools_spec.2.1 stAB stAB.selection [songA, songB] rfl,
   selection_tools_spec.2.2 stAB stAB.selection (SelectionTool.otherTool 7)
     (by decide)⟩

/-- C8: the `PlaylistModel` and `SelectionToolsModel` selection accessors of
`SavedTracksModel` are extensionally equal: on every application state they
return the same optional selection view. -/
theorem selection_accessors_agree (st : AppState) :
    PlaylistModel.selection st = SelectionToolsModel.selection st := rfl

/-- C9: `deselect_song(id)` unconditionally dispatches `Deselect([id])`, for
every state — also when the id is not rendered or the slice is absent; there is
no presence check. -/
theorem deselect_song_unconditional (st : AppState) (id : String) :
    deselect_song st id =
      [AppAction.selectionAction (SelectionAction.deselect [id])] := rfl

/-- C10: with the home state slice absent, `play_song(id)` degrades to a single
dispatch — no `LoadPagedSongs`, just `PlaybackAction::Load(id)`. -/
theorem play_song_absent_home (st : AppState) (id : String)
    (h : st.browser.home_state = none) :
    play_song st id = [AppAction.playbackAction (PlaybackAction.load id)] := by
  simp [play_song, h]

/-- C10 witness: on the state without a home slice, `play_song("c")` dispatches
only `Load("c")`. -/
theorem play_song_absent_home_witness :
    play_song stNoHome "c" =
      [AppAction.playbackAction (PlaybackAction.load "c")] :=
  play_song_absent_home stNoHome "c" rfl
